import Mathlib

/-!
Verification development for the accountability repository.

The repository computes portfolio performance series (`rh_api.py`), converts
loosely typed API payloads into typed dictionaries (`rh_types.py`), and caches
function results in a SQLite-backed store (`caching.py`).

Shallow embedding conventions:
* Python floats are modelled by rationals.
* Python datetimes in `rh_api.py` are modelled by their fractional-day count in
  the proleptic Gregorian calendar (Hinnant civil-day number plus the fraction
  of the day elapsed).  This representation is order-isomorphic to datetimes,
  subtracting `timedelta(days=1)` subtracts `1`, and `.date()` is the floor.
* Fallible code returns `Option` or `Except`.
* SQLite outcomes are injected by oracles `ℕ → Bool` that say whether the
  n-th connection or write attempt raises `sqlite3.OperationalError`.
-/

/-! ### Calendar arithmetic (proleptic Gregorian, Hinnant civil-day algorithm)

`datetime.date` operations used by the source (`.year`, constructing
`date(cur_year, 1, 1)`, comparisons) are modelled via conversions between the
civil-day number and the `(year, month, day)` triple. -/

/-- Civil-day number of a calendar date (days relative to 1970-01-01). -/
def daysFromCivil (y m d : ℤ) : ℤ :=
  let y2 := if m ≤ 2 then y - 1 else y
  let era := Int.fdiv y2 400
  let yoe := y2 - era * 400
  let mShift := if 2 < m then m - 3 else m + 9
  let doy := Int.fdiv (153 * mShift + 2) 5 + d - 1
  let doe := yoe * 365 + Int.fdiv yoe 4 - Int.fdiv yoe 100 + doy
  era * 146097 + doe - 719468

/-- Inverse of `daysFromCivil`: the `(year, month, day)` of a civil-day number. -/
def civilFromDays (z0 : ℤ) : ℤ × ℤ × ℤ :=
  let z := z0 + 719468
  let era := Int.fdiv z 146097
  let doe := z - era * 146097
  let yoe := Int.fdiv (doe - Int.fdiv doe 1460 + Int.fdiv doe 36524 - Int.fdiv doe 146096) 365
  let y := yoe + era * 400
  let doy := doe - (365 * yoe + Int.fdiv yoe 4 - Int.fdiv yoe 100)
  let mp := Int.fdiv (5 * doy + 2) 153
  let d := doy - Int.fdiv (153 * mp + 2) 5 + 1
  let m := if mp < 10 then mp + 3 else mp - 9
  (if m ≤ 2 then y + 1 else y, m, d)

/-- `.date().year` of a datetime whose `.date()` is the civil-day number `z`. -/
def yearOfOrdinal (z : ℤ) : ℤ := (civilFromDays z).1

/-- `.date()` of a datetime modelled as a fractional day count: the floor. -/
def ratFloor (q : ℚ) : ℤ := Int.fdiv q.num q.den

/-! ### Typed records from `rh_types.py` used by `rh_api.py` -/

/-- `EquityHistorical` (rh_types.py): one historical equity data point. -/
structure EquityHistorical where
  adjusted_open_equity : ℚ
  adjusted_close_equity : ℚ
  open_equity : ℚ
  close_equity : ℚ
  open_market_value : ℚ
  close_market_value : ℚ
  begins_at : ℚ
  net_return : ℚ
  session : String
  deriving DecidableEq, Repr

/-- `BankTransfer` (rh_types.py): one bank transfer transaction. -/
structure BankTransfer where
  id : String
  url : String
  ref_id : String
  cancel : Option String
  ach_relationship : String
  account : String
  amount : ℚ
  direction : String
  state : String
  created_at : ℚ
  updated_at : ℚ
  deriving DecidableEq, Repr

/-- `PercentageDate` (rh_types.py): a percentage change at a specific date. -/
structure PercentageDate where
  date : ℚ
  percentage : ℚ
  deriving DecidableEq, Repr

/-! ### Operation A: `_get_historical_portfolio_percentage` (rh_api.py 41-58) -/

/-- Python division: raises `ZeroDivisionError` on a zero divisor. -/
def pydiv (a b : ℚ) : Option ℚ := if b = 0 then none else some (a / b)

/-- The `for h in historicals` loop of `_get_historical_portfolio_percentage`:
the running list of `(h.close_equity - prev_close) / prev_close`, threading
`prev_close` and propagating `ZeroDivisionError`. -/
def opALoop : List EquityHistorical → ℚ → Option (List ℚ)
  | [], _ => some []
  | h :: rest, prev_close =>
    match pydiv (h.close_equity - prev_close) prev_close with
    | none => none
    | some p =>
      match opALoop rest h.close_equity with
      | none => none
      | some ps => some (p :: ps)

/-- `_get_historical_portfolio_percentage` (rh_api.py): percentage change of
the portfolio from the historical data.  `prev_close` starts at the first
sample's close, and the results are zipped back with the input dates. -/
def _get_historical_portfolio_percentage
    (historicals : List EquityHistorical) : Option (List PercentageDate) :=
  match historicals with
  | [] => some []
  | h0 :: _ =>
    match opALoop historicals h0.close_equity with
    | none => none
    | some percentages =>
      some ((historicals.zip percentages).map
        (fun hp => PercentageDate.mk hp.1.begins_at hp.2))

/-! ### `get_bank_transfers` (rh_api.py 95-110)

The network fetch and per-item dict conversion are inputs here: the function
receives the list of `convert_dict_to_typed_dict` results (`None` ↦ `none`).
Python's `sorted` is a stable sort by the key; a stable sort by a total
preorder is extensionally unique, so it is modelled by insertion sort. -/

/-- `get_bank_transfers` (rh_api.py): drop failed conversions and sort by the
`updated_at` key. -/
def get_bank_transfers (transfers_list : List (Option BankTransfer)) :
    List BankTransfer :=
  List.insertionSort (fun a b => a.updated_at ≤ b.updated_at)
    (transfers_list.filterMap id)

/-! ### Operation B: `get_running_ytd_percentage` (rh_api.py 113-164) -/

/-- The `transfer["created_at"] -= datetime.timedelta(days=1)` mutation
(rh_api.py 127-128) applied to one transfer record. -/
def shiftTransfer (t : BankTransfer) : BankTransfer :=
  ⟨t.id, t.url, t.ref_id, t.cancel, t.ach_relationship, t.account, t.amount,
   t.direction, t.state, t.created_at - 1, t.updated_at⟩

/-- The inner `while` loop (rh_api.py 147-154): consume every leading transfer
whose `created_at` is strictly before `dayBegins`; completed deposits add their
amount to the accumulator.  The unconsumed suffix plays the role of the
never-rewinding `current_transfer_idx` pointer. -/
def consume : List BankTransfer → ℚ → ℚ → List BankTransfer × ℚ
  | [], _, total_deposits => ([], total_deposits)
  | t :: rest, dayBegins, total_deposits =>
    if t.created_at < dayBegins then
      consume rest dayBegins
        (if t.direction = "deposit" ∧ t.state = "completed" then
          total_deposits + t.amount
        else total_deposits)
    else (t :: rest, total_deposits)

/-- The `for day in historical[1:]` loop (rh_api.py 145-162): per day, consume
transfers, form `adjusted_start = start_equity + total_deposits`, and emit a
point only when it is nonzero (the division-by-zero guard). -/
def ytdLoop : List EquityHistorical → List BankTransfer → ℚ → ℚ →
    List PercentageDate
  | [], _, _, _ => []
  | day :: rest, transfers, start_equity, total_deposits =>
    let c := consume transfers day.begins_at total_deposits
    let adjusted_start := start_equity + c.2
    if adjusted_start ≠ 0 then
      PercentageDate.mk day.begins_at
          ((day.close_equity - adjusted_start) / adjusted_start) ::
        ytdLoop rest c.1 start_equity c.2
    else
      ytdLoop rest c.1 start_equity c.2

/-- `datetime.date(cur_year, 1, 1)` where `cur_year` is the year of the last
equity sample's date (rh_api.py 130-132). -/
def ytdStartDateAux (lastH : EquityHistorical) : ℤ :=
  daysFromCivil (yearOfOrdinal (ratFloor lastH.begins_at)) 1 1

/-- `get_running_ytd_percentage` (rh_api.py), with the two cached fetches as
inputs.  `historical[-1]` on an empty list raises `IndexError`, hence `none`.
Note that `start_equity` is read from `historical[0]` BEFORE the series is
restricted to the current year. -/
def get_running_ytd_percentage (historical : List EquityHistorical)
    (transfers0 : List BankTransfer) : Option (List PercentageDate) :=
  let transfers1 := transfers0.map shiftTransfer
  match historical.getLast?, historical.head? with
  | some lastH, some firstH =>
    let start_date := ytdStartDateAux lastH
    let start_equity := firstH.open_equity
    let historical2 :=
      historical.filter (fun h => decide (start_date ≤ ratFloor h.begins_at))
    let transfers :=
      transfers1.filter (fun t => decide (start_date ≤ ratFloor t.created_at))
    some (PercentageDate.mk (start_date : ℚ) 0 ::
      ytdLoop historical2.tail transfers start_equity 0)
  | _, _ => none

/-- `get_running_ytd_percentage` with the heap made explicit: the result
together with the post-call equity store and transfer store.  The Python code
mutates each transfer dict in place (line 128) before anything can fail, and
never writes to the equity dicts. -/
def get_running_ytd_percentage_state (historical : List EquityHistorical)
    (transfers : List BankTransfer) :
    Option (List PercentageDate) × List EquityHistorical × List BankTransfer :=
  (get_running_ytd_percentage historical transfers,
   historical, transfers.map shiftTransfer)

/-! ### `datetime.datetime` values and ISO-8601 text (caching.py hooks)

For the serialization hooks the textual content of `isoformat` matters, so
datetimes are modelled by their components and the ISO string by its list of
character codes (48-57 digits, 45 hyphen-minus, 58 colon, 84 T, 46 full stop,
43 plus).  `tzmin` is the UTC offset in minutes (`none` for naive values;
Python also admits sub-minute offsets, which are not modelled). -/

/-- A `datetime.datetime` value, by components. -/
structure PyDateTime where
  year : ℕ
  month : ℕ
  day : ℕ
  hour : ℕ
  minute : ℕ
  second : ℕ
  microsecond : ℕ
  tzmin : Option ℤ
  deriving DecidableEq, Repr

/-- Component ranges of a constructible `datetime.datetime` (day-of-month
checked only against 31, not the month length). -/
def validDTb (d : PyDateTime) : Bool :=
  decide (1 ≤ d.year) && decide (d.year ≤ 9999) &&
  decide (1 ≤ d.month) && decide (d.month ≤ 12) &&
  decide (1 ≤ d.day) && decide (d.day ≤ 31) &&
  decide (d.hour ≤ 23) && decide (d.minute ≤ 59) && decide (d.second ≤ 59) &&
  decide (d.microsecond ≤ 999999) &&
  (match d.tzmin with
   | none => true
   | some off => decide (-1439 ≤ off) && decide (off ≤ 1439))

/-- Zero-padded fixed-width decimal rendering (`%0wd`), as character codes,
most significant digit first. -/
def padDigits : ℕ → ℕ → List ℕ
  | 0, _ => []
  | w + 1, n => (48 + (n / 10 ^ w) % 10) :: padDigits w n

/-- One character code parsed as a decimal digit. -/
def digitVal (c : ℕ) : Option ℕ :=
  if 48 ≤ c ∧ c ≤ 57 then some (c - 48) else none

/-- Read exactly `w` decimal digits, accumulating the value. -/
def readFixedAux : ℕ → ℕ → List ℕ → Option (ℕ × List ℕ)
  | acc, 0, cs => some (acc, cs)
  | _, _ + 1, [] => none
  | acc, w + 1, c :: cs =>
    match digitVal c with
    | none => none
    | some d => readFixedAux (acc * 10 + d) w cs

/-- Read exactly `w` decimal digits as a number, returning the rest. -/
def readFixed (w : ℕ) (cs : List ℕ) : Option (ℕ × List ℕ) :=
  readFixedAux 0 w cs

/-- Require character code `c` next. -/
def expectC (c : ℕ) : List ℕ → Option (List ℕ)
  | [] => none
  | x :: rest => if x = c then some rest else none

/-- The `.ffffff` suffix of `isoformat`: present only when the microsecond
is nonzero. -/
def usRender (us : ℕ) : List ℕ :=
  if us = 0 then [] else 46 :: padDigits 6 us

/-- The `±HH:MM` suffix of `isoformat`: present only for aware values. -/
def tzRender : Option ℤ → List ℕ
  | none => []
  | some off =>
    (if 0 ≤ off then 43 else 45) :: padDigits 2 (off.natAbs / 60) ++
      58 :: padDigits 2 (off.natAbs % 60)

/-- `datetime.isoformat()`: `YYYY-MM-DDTHH:MM:SS`, with `.ffffff` only when
the microsecond is nonzero and `±HH:MM` only for aware values. -/
def isoformat (d : PyDateTime) : List ℕ :=
  padDigits 4 d.year ++ 45 :: padDigits 2 d.month ++ 45 :: padDigits 2 d.day ++
  84 :: padDigits 2 d.hour ++ 58 :: padDigits 2 d.minute ++
  58 :: padDigits 2 d.second ++ (usRender d.microsecond ++ tzRender d.tzmin)

/-- Parse the optional `±HH:MM` offset suffix. -/
def readTz : List ℕ → Option (Option ℤ × List ℕ)
  | [] => some (none, [])
  | 43 :: rest =>
    match readFixed 2 rest with
    | none => none
    | some (h2, r1) =>
      match expectC 58 r1 with
      | none => none
      | some r2 =>
        match readFixed 2 r2 with
        | none => none
        | some (m2, r3) => some (some ((h2 * 60 + m2 : ℕ) : ℤ), r3)
  | 45 :: rest =>
    match readFixed 2 rest with
    | none => none
    | some (h2, r1) =>
      match expectC 58 r1 with
      | none => none
      | some r2 =>
        match readFixed 2 r2 with
        | none => none
        | some (m2, r3) => some (some (-((h2 * 60 + m2 : ℕ) : ℤ)), r3)
  | cs => some (none, cs)

/-- Final range validation performed by the `datetime` constructor. -/
def mkValid (y mo dy hh mi ss us : ℕ) (tz : Option ℤ) : Option PyDateTime :=
  let d : PyDateTime := ⟨y, mo, dy, hh, mi, ss, us, tz⟩
  if validDTb d then some d else none

/-- The tail of `fromisoformat` after the seconds: optional fractional
seconds, optional offset, then no text may remain; finally the `datetime`
constructor validates the components. -/
def fromisoTail (y mo dy hh mi ss : ℕ) (cs11 : List ℕ) : Option PyDateTime :=
  match (match cs11 with
         | 46 :: rest => readFixed 6 rest
         | other => some (0, other)) with
  | none => none
  | some (us, cs12) =>
    match readTz cs12 with
    | none => none
    | some (tz, cs13) => if cs13 = [] then mkValid y mo dy hh mi ss us tz else none

/-- `datetime.fromisoformat` on the grammar produced by `isoformat`. -/
def fromisoformat (cs : List ℕ) : Option PyDateTime :=
  match readFixed 4 cs with
  | none => none
  | some (y, cs1) =>
  match expectC 45 cs1 with
  | none => none
  | some cs2 =>
  match readFixed 2 cs2 with
  | none => none
  | some (mo, cs3) =>
  match expectC 45 cs3 with
  | none => none
  | some cs4 =>
  match readFixed 2 cs4 with
  | none => none
  | some (dy, cs5) =>
  match expectC 84 cs5 with
  | none => none
  | some cs6 =>
  match readFixed 2 cs6 with
  | none => none
  | some (hh, cs7) =>
  match expectC 58 cs7 with
  | none => none
  | some cs8 =>
  match readFixed 2 cs8 with
  | none => none
  | some (mi, cs9) =>
  match expectC 58 cs9 with
  | none => none
  | some cs10 =>
  match readFixed 2 cs10 with
  | none => none
  | some (ss, cs11) => fromisoTail y mo dy hh mi ss cs11

/-! ### JSON-serializable Python values (caching.py 89-100)

`json.dumps(..., default=_serialize_for_cache)` /
`json.loads(..., object_hook=_deserialize_from_cache)` work over values built
from null, bool, number, string, datetime, array and object.  Object keys and
strings are lists of character codes. -/

mutual

inductive JVal where
  | jnull
  | jbool (b : Bool)
  | jnum (q : ℚ)
  | jstr (s : List ℕ)
  | jdt (d : PyDateTime)
  | jarr (items : JItems)
  | jobj (fields : JFields)
  deriving DecidableEq, Repr

inductive JItems where
  | nil
  | cons (v : JVal) (rest : JItems)
  deriving DecidableEq, Repr

inductive JFields where
  | nil
  | cons (k : List ℕ) (v : JVal) (rest : JFields)
  deriving DecidableEq, Repr

end

/-- The character codes of the tag key `__datetime__`. -/
def dtKey : List ℕ := [95, 95, 100, 97, 116, 101, 116, 105, 109, 101, 95, 95]

/-- Key lookup in a JSON object (a Python dict has one entry per key). -/
def fieldsLookup : JFields → List ℕ → Option JVal
  | .nil, _ => none
  | .cons k v rest, key => if k = key then some v else fieldsLookup rest key

/-- `_serialize_for_cache` (caching.py 89-93): a datetime becomes the tagged
object with its `isoformat` text; everything else is returned unchanged. -/
def _serialize_for_cache : JVal → JVal
  | .jdt d => .jobj (.cons dtKey (.jstr (isoformat d)) .nil)
  | v => v

/-- `_deserialize_from_cache` (caching.py 96-100): a dict containing the tag
key is decoded with `datetime.fromisoformat` (raising on malformed or
non-string content, hence `none`); everything else is returned unchanged. -/
def _deserialize_from_cache : JVal → Option JVal
  | .jobj fields =>
    match fieldsLookup fields dtKey with
    | some (.jstr s) => (fromisoformat s).map .jdt
    | some _ => none
    | none => some (.jobj fields)
  | v => some v

mutual

/-- `json.dumps(v, default=_serialize_for_cache)`, kept at the value level:
the encode hook applied at every datetime leaf. -/
def jser : JVal → JVal
  | .jdt d => _serialize_for_cache (.jdt d)
  | .jarr items => .jarr (jserItems items)
  | .jobj fields => .jobj (jserFields fields)
  | v => v

def jserItems : JItems → JItems
  | .nil => .nil
  | .cons v rest => .cons (jser v) (jserItems rest)

def jserFields : JFields → JFields
  | .nil => .nil
  | .cons k v rest => .cons k (jser v) (jserFields rest)

end

mutual

/-- `json.loads(text, object_hook=_deserialize_from_cache)`, kept at the value
level: the decode hook applied to every object, innermost first. -/
def jdeser : JVal → Option JVal
  | .jobj fields =>
    match jdeserFields fields with
    | none => none
    | some fields2 => _deserialize_from_cache (.jobj fields2)
  | .jarr items =>
    match jdeserItems items with
    | none => none
    | some items2 => some (.jarr items2)
  | v => some v

def jdeserItems : JItems → Option JItems
  | .nil => some .nil
  | .cons v rest =>
    match jdeser v with
    | none => none
    | some v2 =>
      match jdeserItems rest with
      | none => none
      | some rest2 => some (.cons v2 rest2)

def jdeserFields : JFields → Option JFields
  | .nil => some .nil
  | .cons k v rest =>
    match jdeser v with
    | none => none
    | some v2 =>
      match jdeserFields rest with
      | none => none
      | some rest2 => some (.cons k v2 rest2)

end

mutual

/-- Values that survive the serialize/deserialize round trip: datetimes are
constructible, and no object already carries the reserved tag key. -/
def goodJVal : JVal → Bool
  | .jdt d => validDTb d
  | .jarr items => goodItems items
  | .jobj fields => (fieldsLookup fields dtKey).isNone && goodFields fields
  | _ => true

def goodItems : JItems → Bool
  | .nil => true
  | .cons v rest => goodJVal v && goodItems rest

def goodFields : JFields → Bool
  | .nil => true
  | .cons _ v rest => goodJVal v && goodFields rest

end

/-! ### The result cache (caching.py 29-181)

The backing store is the per-table map from keys to `(value, timestamp)` rows,
as an association list.  Whether the n-th `sqlite3.connect` /
`INSERT OR REPLACE` attempt raises `sqlite3.OperationalError` is injected by
oracles; sleeping between attempts is irrelevant to the results and elided. -/

/-- A `sqlite3` error (all raised errors in the model are operational ones,
i.e. subclasses of `sqlite3.Error`). -/
inductive DbErr where
  | opError
  deriving DecidableEq, Repr

/-- Errors the wrapped call can surface to its caller.  `valueError` stands
for the `json` decode failures, which are NOT `sqlite3.Error`s. -/
inductive PyErr where
  | valueError
  deriving DecidableEq, Repr

namespace RetryableDatabase

/-- `RetryableDatabase.MAX_RETRIES` (caching.py 32). -/
def MAX_RETRIES : ℕ := 5

end RetryableDatabase

/-- The `for attempt in range(MAX_RETRIES)` retry pattern shared verbatim by
`RetryableDatabase.__enter__` (caching.py 40-57) and the upsert loop
(caching.py 145-171): attempt; on `OperationalError` re-raise when
`attempt == MAX_RETRIES - 1`, otherwise back off and try again. -/
def retryLoop (fail : ℕ → Bool) : ℕ → ℕ → Except DbErr Unit
  | _, 0 => .ok ()
  | attempt, remaining + 1 =>
    if fail attempt then
      if attempt = RetryableDatabase.MAX_RETRIES - 1 then .error .opError
      else retryLoop fail (attempt + 1) remaining
    else .ok ()

namespace RetryableDatabase

/-- `RetryableDatabase.__enter__` (caching.py 39-58): open the connection
with retries. -/
def enter (connFail : ℕ → Bool) : Except DbErr Unit :=
  retryLoop connFail 0 MAX_RETRIES

end RetryableDatabase

/-- The retried `INSERT OR REPLACE` of caching.py 145-171. -/
def upsertRetry (upsertFail : ℕ → Bool) : Except DbErr Unit :=
  retryLoop upsertFail 0 RetryableDatabase.MAX_RETRIES

/-- One cache table: rows `(key, value, timestamp)` keyed by `key`. -/
def Store : Type := List (String × JVal × ℚ)

/-- `SELECT value, timestamp FROM table WHERE key = ?` + `fetchone()`. -/
def lookupRow : Store → String → Option (JVal × ℚ)
  | [], _ => none
  | (k, v, ts) :: rest, key =>
    if k = key then some (v, ts) else lookupRow rest key

/-- `INSERT OR REPLACE INTO table (key, value, timestamp) VALUES (?, ?, ?)`:
at most one live row per key. -/
def upsertRow : Store → String → JVal → ℚ → Store
  | [], key, v, ts => [(key, v, ts)]
  | (k, v0, ts0) :: rest, key, v, ts =>
    if k = key then (key, v, ts) :: rest
    else (k, v0, ts0) :: upsertRow rest key v ts

/-- `cache_key = f"{func.__name__}:{str(args)}:{str(kwargs)}"`
(caching.py 115). -/
def cacheKey (funcName argsStr kwargsStr : String) : String :=
  funcName ++ ":" ++ argsStr ++ ":" ++ kwargsStr

/-- The MISS / EXPIRED path of the wrapper (caching.py 141-173): compute the
value (one invocation), retry the upsert; when the retries are exhausted the
re-raised `OperationalError` is caught by the outer `except sqlite3.Error`
handler (caching.py 175-177), which invokes the function a second time and
returns that value with nothing cached. -/
def cacheMiss (upsertFail : ℕ → Bool) (key : String) (fv : JVal)
    (current_time : ℚ) (store : Store) : Except PyErr (JVal × Store × ℕ) :=
  match upsertRetry upsertFail with
  | .error _ => .ok (fv, store, 2)
  | .ok _ => .ok (fv, upsertRow store key (jser fv) current_time, 1)

/-- The wrapper produced by `cache_result` (caching.py 113-177) for one call:
given the failure oracles, the TTL, the cache key, the value `fv` the wrapped
function returns, the clock and the store, produce the outcome: either a
propagated error, or `(returned value, post store, number of times the
wrapped function ran)`.  A connection failure after all retries is caught by
the outer `except sqlite3.Error` and degrades to an uncached direct call. -/
def cacheWrapper (connFail upsertFail : ℕ → Bool) (ttl : ℚ) (key : String)
    (fv : JVal) (now : ℚ) (store : Store) : Except PyErr (JVal × Store × ℕ) :=
  match RetryableDatabase.enter connFail with
  | .error _ => .ok (fv, store, 1)
  | .ok _ =>
    match lookupRow store key with
    | some (v, ts) =>
      if now - ts < ttl then
        match jdeser v with
        | some v2 => .ok (v2, store, 0)
        | none => .error .valueError
      else cacheMiss upsertFail key fv now store
    | none => cacheMiss upsertFail key fv now store

/-! ### `convert_dict_to_typed_dict` (rh_types.py 97-183)

The runtime reflection over `get_type_hints` is embedded as an explicit field
descriptor: a field is a basic value (datetime / float / passthrough), a list,
or a nested typed dict.  `float(...)` on strings is modelled on the plain
decimal grammar (sign, digits, optional fraction and exponent). -/

/-- Is this character code a decimal digit? -/
def isDigitCode (c : ℕ) : Bool := decide (48 ≤ c) && decide (c ≤ 57)

/-- Value of a digit-code run, most significant first. -/
def digitsVal (l : List ℕ) : ℕ := l.foldl (fun acc c => acc * 10 + (c - 48)) 0

/-- Leading sign: `true` means negative. -/
def parseSign : List ℕ → Bool × List ℕ
  | 43 :: rest => (false, rest)
  | 45 :: rest => (true, rest)
  | cs => (false, cs)

/-- The builtin `float(str)` on the decimal grammar
`[sign] digits [. digits] [e [sign] digits]` (at least one digit before the
exponent); `none` models the `ValueError` for anything else. -/
def parseFloat (cs : List ℕ) : Option ℚ :=
  let s1 := parseSign cs
  let ip := s1.2.takeWhile isDigitCode
  let cs2 := s1.2.dropWhile isDigitCode
  let fpAndRest :=
    match cs2 with
    | 46 :: rest => (rest.takeWhile isDigitCode, rest.dropWhile isDigitCode)
    | other => ([], other)
  let fp := fpAndRest.1
  let cs3 := fpAndRest.2
  if ip.length + fp.length = 0 then none
  else
    let base : ℚ :=
      ((digitsVal ip * 10 ^ fp.length + digitsVal fp : ℕ) : ℚ) / 10 ^ fp.length
    match cs3 with
    | [] => some (if s1.1 then -base else base)
    | e :: rest =>
      if e = 101 ∨ e = 69 then
        let es := parseSign rest
        let ed := es.2.takeWhile isDigitCode
        let r2 := es.2.dropWhile isDigitCode
        if ed.length = 0 ∨ r2 ≠ [] then none
        else
          let v := if es.1 then base / 10 ^ digitsVal ed else base * 10 ^ digitsVal ed
          some (if s1.1 then -v else v)
      else none

/-- `value.replace("Z", "+00:00")` (rh_types.py 103), on character codes. -/
def replaceZ (cs : List ℕ) : List ℕ :=
  (cs.map (fun c => if c = 90 then [43, 48, 48, 58, 48, 48] else [c])).flatten

/-- The `target_type` cases `_convert_value_to_type` distinguishes
(rh_types.py 102-116): `datetime.datetime`, `float`, anything else. -/
inductive FieldType where
  | datetimeT
  | floatT
  | otherT
  deriving DecidableEq, Repr

/-- `_convert_value_to_type` (rh_types.py 97-116).  `None` passes through;
a string with datetime target is parsed (a parse failure raises, hence
`.error`); a float target coerces numbers and booleans, parses strings with
`0.0` as the fallback for unparsable text, and maps anything else to `0.0`;
any other target returns the value unchanged. -/
def _convert_value_to_type (value : JVal) (target : FieldType) :
    Except Unit JVal :=
  match value, target with
  | .jnull, _ => .ok .jnull
  | .jstr s, .datetimeT =>
    (match fromisoformat (replaceZ s) with
     | some d => .ok (.jdt d)
     | none => .error ())
  | v, .floatT =>
    (match v with
     | .jnum q => .ok (.jnum q)
     | .jbool b => .ok (.jnum (if b then 1 else 0))
     | .jstr s =>
       (match parseFloat s with
        | some q => .ok (.jnum q)
        | none => .ok (.jnum 0))
     | _ => .ok (.jnum 0))
  | v, _ => .ok v

mutual

/-- A field of a typed-dict target: a basic conversion, `list[elem]`, or a
nested typed dict. -/
inductive FieldKind where
  | basic (t : FieldType)
  | listOf (elem : TypeDesc)
  | nested (d : TypeDesc)

/-- The declared fields of a typed-dict target, in `get_type_hints` order. -/
inductive TypeDesc where
  | nil
  | cons (name : List ℕ) (k : FieldKind) (rest : TypeDesc)

end

/-- The value a field lookup feeds into the per-field conversion is never
bigger than the whole entry list (for the termination measure). -/
theorem sizeOf_fieldsLookup_getD : ∀ (entries : JFields) (name : List ℕ),
    sizeOf ((fieldsLookup entries name).getD JVal.jnull) ≤ sizeOf entries
  | .nil, _ => by simp [fieldsLookup]
  | .cons k v rest, name => by
    simp only [fieldsLookup]
    split
    · simp only [Option.getD_some, JFields.cons.sizeOf_spec]; omega
    · have h := sizeOf_fieldsLookup_getD rest name
      simp only [JFields.cons.sizeOf_spec]; omega

mutual

/-- `convert_dict_to_typed_dict` (rh_types.py 119-183).  `None` or non-dict
data yields `None`; otherwise each declared field is converted under a
per-field `except Exception` that turns a raised conversion error into a
`None` field.  The function itself never raises, reflected by the `Except`
result being constructed `.ok` on every path. -/
def convert_dict_to_typed_dict (data : JVal) (target : TypeDesc) :
    Except Unit JVal :=
  match data with
  | .jnull => .ok .jnull
  | .jobj entries => .ok (.jobj (convertFields entries target))
  | _ => .ok .jnull
termination_by sizeOf data + sizeOf target
decreasing_by all_goals (simp_wf; try omega)

/-- The `for field_name, field_type in type_hints.items()` loop
(rh_types.py 146-175), building the result dict field by field;
`data.get(field_name)` is `None` for a missing key. -/
def convertFields (entries : JFields) (fields : TypeDesc) : JFields :=
  match fields with
  | .nil => .nil
  | .cons name kind rest =>
    .cons name (convertField ((fieldsLookup entries name).getD .jnull) kind)
      (convertFields entries rest)
termination_by sizeOf entries + sizeOf fields
decreasing_by
  all_goals simp_wf
  all_goals (have h := sizeOf_fieldsLookup_getD entries name; omega)

/-- One field conversion under the per-field `try`/`except`
(rh_types.py 147-175): lists map dict items through the nested conversion and
replace non-list values by `[]`; nested typed dicts recurse; basic values go
through `_convert_value_to_type`, any raised exception becoming `None`. -/
def convertField (value : JVal) (kind : FieldKind) : JVal :=
  match kind with
  | .basic t =>
    (match _convert_value_to_type value t with
     | .ok v => v
     | .error _ => .jnull)
  | .listOf elemDesc =>
    (match value with
     | .jarr items => .jarr (convertItems items elemDesc)
     | _ => .jarr .nil)
  | .nested d =>
    (match convert_dict_to_typed_dict value d with
     | .ok v => v
     | .error _ => .jnull)
termination_by sizeOf value + sizeOf kind
decreasing_by all_goals (simp_wf; try omega)

/-- The list comprehension of rh_types.py 154-161: dict items are converted
as the element type, other items pass through unchanged. -/
def convertItems (items : JItems) (elemDesc : TypeDesc) : JItems :=
  match items with
  | .nil => .nil
  | .cons v rest =>
    .cons
      (match v with
       | .jobj fs =>
         (match convert_dict_to_typed_dict (.jobj fs) elemDesc with
          | .ok w => w
          | .error _ => .jnull)
       | other => other)
      (convertItems rest elemDesc)
termination_by sizeOf items + sizeOf elemDesc
decreasing_by all_goals (simp_wf; try omega)

end

/-! ### Statement-side definitions and concrete inputs -/

/-- The per-day trace of Operation B's loop: each walked day paired with the
`adjusted_start` in force when it is processed (extracted from `ytdLoop` for
stating which days emit points). -/
def adjustedTrace : List EquityHistorical → List BankTransfer → ℚ → ℚ →
    List (EquityHistorical × ℚ)
  | [], _, _, _ => []
  | day :: rest, transfers, start_equity, total_deposits =>
    let c := consume transfers day.begins_at total_deposits
    (day, start_equity + c.2) :: adjustedTrace rest c.1 start_equity c.2

/-- Operation A written as in the specification: pair `n` compares close `n`
against close `n − 1`, the first against itself, using total division. -/
def specPD : ℚ → List EquityHistorical → List PercentageDate
  | _, [] => []
  | prev, h :: rest =>
    PercentageDate.mk h.begins_at ((h.close_equity - prev) / prev) ::
      specPD h.close_equity rest

/-- The running percentages of Operation A, without the dates. -/
def specCloses : ℚ → List EquityHistorical → List ℚ
  | _, [] => []
  | prev, h :: rest => (h.close_equity - prev) / prev :: specCloses h.close_equity rest

/-- `isinstance(data, dict)`. -/
def isPyDict : JVal → Bool
  | .jobj _ => true
  | _ => false

instance : IsTotal BankTransfer (fun a b => a.updated_at ≤ b.updated_at) :=
  ⟨fun a b => le_total a.updated_at b.updated_at⟩

instance : IsTrans BankTransfer (fun a b => a.updated_at ≤ b.updated_at) :=
  ⟨fun _ _ _ h1 h2 => le_trans h1 h2⟩

/-- Oracle: every store attempt raises `OperationalError`. -/
def cfAll : ℕ → Bool := fun _ => true

/-- Oracle: no store attempt raises. -/
def cfNone : ℕ → Bool := fun _ => false

/-- An equity sample with the given open, close and period start. -/
def mkEH (openE closeE date : ℚ) : EquityHistorical :=
  ⟨openE, closeE, openE, closeE, openE, closeE, date, 0, r"reg"⟩

/-- A transfer with the given amount, direction, state and timestamps. -/
def mkBT (amount : ℚ) (direction state : String) (created updated : ℚ) :
    BankTransfer :=
  ⟨r"id", r"url", r"ref", none, r"ach", r"acct", amount, direction, state,
   created, updated⟩

/-- C1 failing input: a year-span fetch whose first sample is from the
previous year with a different opening equity than the first current-year
sample.  The day numbers are those of 2023-12-31, 2024-01-01 and 2024-01-02
(pinned against `daysFromCivil` inside `claim_C1_bug`). -/
def c1H : List EquityHistorical :=
  [mkEH 100 100 19722, mkEH 200 200 19723, mkEH 200 300 19724]

/-- C1 failing input: no transfers at all. -/
def c1T : List BankTransfer := []

/-- A transfer created later but updated earlier. -/
def c3A : BankTransfer := mkBT 10 r"deposit" r"completed" 2 1

/-- A transfer created earlier but updated later. -/
def c3B : BankTransfer := mkBT 20 r"deposit" r"completed" 1 2

/-- The specification's Operation A example: closes 100 then 110. -/
def exA : List EquityHistorical :=
  [mkEH 100 100 ((daysFromCivil 2024 1 1 : ℤ) : ℚ),
   mkEH 110 110 ((daysFromCivil 2024 1 2 : ℤ) : ℚ)]

/-- Two walked days for the C7 witness. -/
def w7days : List EquityHistorical := [mkEH 0 10 1, mkEH 0 7 2]

/-- One completed deposit that zeroes `adjusted_start` from the second day on
(`-50 + 50 = 0`). -/
def w7ts : List BankTransfer := [mkBT 50 r"deposit" r"completed" (3 / 2) 0]

/-- Cache key used by the C5 witness. -/
def wkey : String := cacheKey r"get_bank_transfers" r"()" r""

/-- A valid aware datetime. -/
def wdtEx : PyDateTime := ⟨2024, 3, 5, 14, 30, 9, 123456, some (-300)⟩

/-- A cacheable value containing a datetime. -/
def wval : JVal := .jobj (.cons [97] (.jdt wdtEx) .nil)

/-- C10 target: a float field `a` and a datetime field `b`. -/
def c10desc : TypeDesc :=
  .cons [97] (.basic .floatT) (.cons [98] (.basic .datetimeT) .nil)

/-- C10 data: both fields hold strings that fail their conversions. -/
def c10entries : JFields :=
  .cons [97] (.jstr [120]) (.cons [98] (.jstr [121]) .nil)

/-! ### Claim theorems -/

/-- C6: in Operation B's merge-join, every consumed transfer is a leading one
whose shifted timestamp precedes the day (the pointer advances over all of
them, leaving the `dropWhile` suffix), and the accumulator grows by exactly
the amounts of those consumed transfers that are completed deposits —
all other consumed transfers contribute `0` regardless of amount or timing. -/
theorem claim_C6 (ts : List BankTransfer) (dayBegins total : ℚ) :
    (consume ts dayBegins total).1 =
      ts.dropWhile (fun t => decide (t.created_at < dayBegins)) ∧
    (consume ts dayBegins total).2 =
      total + ((ts.takeWhile (fun t => decide (t.created_at < dayBegins))).map
        (fun t => if t.direction = "deposit" ∧ t.state = "completed" then
          t.amount else 0)).sum := by
  induction ts generalizing total with
  | nil => simp [consume]
  | cons t rest ih =>
    by_cases h : t.created_at < dayBegins
    · have := ih (if t.direction = "deposit" ∧ t.state = "completed" then
        total + t.amount else total)
      constructor
      · simp [consume, h, List.dropWhile_cons, this.1]
      · simp only [consume, if_pos h, List.takeWhile_cons, decide_eq_true h,
          List.map_cons, List.sum_cons, this.2]
        by_cases hc : t.direction = "deposit" ∧ t.state = "completed"
        · simp [hc]; ring
        · simp [hc]
    · constructor
      · simp [consume, h, List.dropWhile_cons]
      · simp [consume, h, List.takeWhile_cons]

/-- C7: the loop of Operation B emits exactly one point per walked day whose
`adjusted_start` is nonzero — a day whose `adjusted_start` is exactly `0` is
skipped with no error — and every performed division has a nonzero divisor
(`pydiv` succeeds), so `ZeroDivisionError` is impossible. -/
theorem claim_C7 (days : List EquityHistorical) (ts : List BankTransfer)
    (start_equity total : ℚ) :
    ytdLoop days ts start_equity total =
      (adjustedTrace days ts start_equity total).filterMap
        (fun db => if db.2 ≠ 0 then
          some (PercentageDate.mk db.1.begins_at
            ((db.1.close_equity - db.2) / db.2))
        else none) ∧
    ∀ db ∈ adjustedTrace days ts start_equity total, db.2 ≠ 0 →
      pydiv (db.1.close_equity - db.2) db.2 =
        some ((db.1.close_equity - db.2) / db.2) := by
  induction days generalizing ts total with
  | nil => simp [ytdLoop, adjustedTrace]
  | cons day rest ih =>
    have h := ih (consume ts day.begins_at total).1
      (consume ts day.begins_at total).2
    constructor
    · by_cases hz : start_equity + (consume ts day.begins_at total).2 = 0
      · simp [ytdLoop, adjustedTrace, hz, h.1]
      · simp [ytdLoop, adjustedTrace, hz, h.1]
    · intro db hdb hnz
      simp only [adjustedTrace, List.mem_cons] at hdb
      rcases hdb with hdb | hdb
      · subst hdb; simp [pydiv, hnz]
      · exact h.2 db hdb hnz

/-- C7 witness: with `start_equity = -50` and a completed deposit of `50`
consumed before the second day, the first day emits its point and the
second day (whose `adjusted_start` is exactly `0`) is skipped. -/
theorem claim_C7_witness :
    ytdLoop w7days w7ts (-50) 0 = [PercentageDate.mk 1 (-6 / 5)] ∧
    pydiv ((mkEH 0 10 1).close_equity - (-50)) (-50) =
      some (((mkEH 0 10 1).close_equity - (-50)) / (-50)) := by
  have h := claim_C7 w7days w7ts (-50) 0
  constructor
  · rw [h.1]
    norm_num [adjustedTrace, consume, w7days, w7ts, mkEH, mkBT,
      List.filterMap_cons, List.filterMap_nil]
  · exact h.2 (mkEH 0 10 1, -50)
      (by norm_num [adjustedTrace, consume, w7days, w7ts, mkEH, mkBT])
      (by norm_num)

/-- C9: the whole-state version of `get_running_ytd_percentage` leaves every
equity sample untouched but replaces each transfer in the store, in place, by
the same record with `created_at` one day earlier (`shiftTransfer`), so the
shift is visible to any holder of the transfer list returned by
`get_bank_transfers`. -/
theorem claim_C9 (historical : List EquityHistorical)
    (transfers : List BankTransfer) :
    (get_running_ytd_percentage_state historical transfers).2.1 = historical ∧
    ((get_running_ytd_percentage_state historical transfers).2.2).length =
      transfers.length ∧
    (∀ (i : ℕ) (t : BankTransfer), transfers[i]? = some t →
      ((get_running_ytd_percentage_state historical transfers).2.2)[i]? =
        some (shiftTransfer t)) ∧
    ∀ t : BankTransfer,
      (shiftTransfer t).created_at = t.created_at - 1 ∧
      (shiftTransfer t).updated_at = t.updated_at ∧
      (shiftTransfer t).amount = t.amount ∧
      (shiftTransfer t).direction = t.direction ∧
      (shiftTransfer t).state = t.state ∧
      (shiftTransfer t).id = t.id := by
  refine ⟨rfl, by simp [get_running_ytd_percentage_state], ?_, ?_⟩
  · intro i t h
    simp [get_running_ytd_percentage_state, List.getElem?_map, h]
  · intro t
    exact ⟨rfl, rfl, rfl, rfl, rfl, rfl⟩

/-- C9 witness: the state after running on one pending transfer dated day 7
holds the same transfer dated day 6. -/
theorem claim_C9_witness :
    (get_running_ytd_percentage_state [] [mkBT 5 r"deposit" r"pending" 7 8]).2.2[0]? =
      some (shiftTransfer (mkBT 5 r"deposit" r"pending" 7 8)) :=
  (claim_C9 [] [mkBT 5 r"deposit" r"pending" 7 8]).2.2.1 0
    (mkBT 5 r"deposit" r"pending" 7 8) rfl

/-- C3 counterexample: a transfer created later but updated earlier sorts
first, so the returned sequence is NOT ordered by created timestamp. -/
theorem claim_C3_counterexample :
    get_bank_transfers [some c3A, some c3B] = [c3A, c3B] ∧
    ¬ List.Pairwise (fun a b : BankTransfer => a.created_at ≤ b.created_at)
      (get_bank_transfers [some c3A, some c3B]) := by
  have h : get_bank_transfers [some c3A, some c3B] = [c3A, c3B] := by
    norm_num [get_bank_transfers, List.insertionSort, List.orderedInsert,
      c3A, c3B, mkBT]
  refine ⟨h, ?_⟩
  rw [h]
  norm_num [List.pairwise_cons, c3A, c3B, mkBT]

/-- C3 amended: `get_bank_transfers` returns the conversion survivors sorted
by UPDATED timestamp (`updated_at`), not by created timestamp; order by
`created_at` holds only when the two orders agree. -/
theorem claim_C3_amended (transfers_list : List (Option BankTransfer)) :
    List.Sorted (fun a b : BankTransfer => a.updated_at ≤ b.updated_at)
      (get_bank_transfers transfers_list) :=
  List.sorted_insertionSort (fun a b => a.updated_at ≤ b.updated_at)
    (transfers_list.filterMap id)

/-- C1: the claim fails on the code — and the code contradicts its own
docstring ("percentage change ... from the start of the year").  On `c1H`
(first sample 2023-12-31 with open equity 100, first current-year sample
2024-01-01 with open equity 200, no transfers) the emitted 2024-01-02 point
uses baseline 100, the opening equity of the PRE-filter first sample, giving
percentage `2`, not the `(300 - 200) / 200 = 1/2` the claimed post-filter
baseline would give. -/
theorem claim_C1_bug :
    daysFromCivil 2023 12 31 = 19722 ∧ daysFromCivil 2024 1 1 = 19723 ∧
    daysFromCivil 2024 1 2 = 19724 ∧
    get_running_ytd_percentage c1H c1T =
      some [PercentageDate.mk 19723 0, PercentageDate.mk 19724 2] ∧
    (2 : ℚ) ≠ (300 - 200) / 200 := by
  refine ⟨by decide, by decide, by decide, ?_, by norm_num⟩
  have hy : yearOfOrdinal 19724 = 2024 := by decide
  have hsd : daysFromCivil 2024 1 1 = 19723 := by decide
  norm_num [get_running_ytd_percentage, c1H, c1T, ytdStartDateAux, mkEH,
    ratFloor, hy, hsd, ytdLoop, consume]

/-- When all five attempts raise, the shared retry pattern re-raises the
`OperationalError` from the final attempt. -/
theorem retryLoop_exhaust (fail : ℕ → Bool)
    (h : ∀ i, i < RetryableDatabase.MAX_RETRIES → fail i = true) :
    retryLoop fail 0 RetryableDatabase.MAX_RETRIES = .error .opError := by
  have h0 := h 0 (by norm_num [RetryableDatabase.MAX_RETRIES])
  have h1 := h 1 (by norm_num [RetryableDatabase.MAX_RETRIES])
  have h2 := h 2 (by norm_num [RetryableDatabase.MAX_RETRIES])
  have h3 := h 3 (by norm_num [RetryableDatabase.MAX_RETRIES])
  have h4 := h 4 (by norm_num [RetryableDatabase.MAX_RETRIES])
  simp [RetryableDatabase.MAX_RETRIES, retryLoop, h0, h1, h2, h3, h4]

/-- C2 counterexample: with every connection attempt failing (first call) or
every upsert attempt failing (second call), the wrapped call still returns a
value — `.ok` with the function's result — instead of propagating the store
error to the caller. -/
theorem claim_C2_counterexample :
    cacheWrapper cfAll cfAll 10 wkey (JVal.jnum 42) 0 [] =
      .ok (JVal.jnum 42, [], 1) ∧
    cacheWrapper cfNone cfAll 10 wkey (JVal.jnum 42) 0 [] =
      .ok (JVal.jnum 42, [], 2) := by
  constructor
  · have he : RetryableDatabase.enter cfAll = .error .opError :=
      retryLoop_exhaust cfAll (fun _ _ => rfl)
    simp [cacheWrapper, he]
  · have hu : upsertRetry cfAll = .error .opError :=
      retryLoop_exhaust cfAll (fun _ _ => rfl)
    simp [cacheWrapper, RetryableDatabase.enter, RetryableDatabase.MAX_RETRIES,
      retryLoop, cfNone, lookupRow, cacheMiss, hu]

/-- C2 amended: exhausting the five retries does NOT propagate the store
error: the re-raised `OperationalError` is a `sqlite3.Error`, so the
wrapper's outermost `except sqlite3.Error` handler catches it and falls back
to invoking the wrapped function directly.  On connection-retry exhaustion
the caller receives the function's value (one invocation, store unchanged);
on upsert-retry exhaustion the freshly computed value is discarded, the
function is invoked a second time, and the caller receives that second
value — never the error. -/
theorem claim_C2_amended :
    (∀ (connFail upsertFail : ℕ → Bool) (ttl : ℚ) (key : String) (fv : JVal)
       (now : ℚ) (store : Store),
       (∀ i, i < RetryableDatabase.MAX_RETRIES → connFail i = true) →
       cacheWrapper connFail upsertFail ttl key fv now store =
         .ok (fv, store, 1)) ∧
    ∀ (connFail upsertFail : ℕ → Bool) (ttl : ℚ) (key : String) (fv : JVal)
      (now : ℚ) (store : Store),
      RetryableDatabase.enter connFail = .ok () →
      lookupRow store key = none →
      (∀ i, i < RetryableDatabase.MAX_RETRIES → upsertFail i = true) →
      cacheWrapper connFail upsertFail ttl key fv now store =
        .ok (fv, store, 2) := by
  constructor
  · intro connFail upsertFail ttl key fv now store h
    have he : RetryableDatabase.enter connFail = .error .opError :=
      retryLoop_exhaust connFail h
    simp [cacheWrapper, he]
  · intro connFail upsertFail ttl key fv now store he hl h
    have hu : upsertRetry upsertFail = .error .opError :=
      retryLoop_exhaust upsertFail h
    simp [cacheWrapper, he, hl, cacheMiss, hu]

/-- C2 amended witness: the all-fail oracle satisfies the hypotheses; the
caller of the wrapped function receives the recomputed value. -/
theorem claim_C2_amended_witness :
    cacheWrapper cfNone cfAll 10 wkey (JVal.jnum 42) 0 [] =
      .ok (JVal.jnum 42, [], 2) :=
  claim_C2_amended.2 cfNone cfAll 10 wkey (JVal.jnum 42) 0 [] rfl rfl
    (fun _ _ => rfl)

theorem digitVal_digit (d : ℕ) (hd : d < 10) : digitVal (48 + d) = some d := by
  unfold digitVal
  rw [if_pos ⟨by omega, by omega⟩]
  congr 1
  omega

theorem readFixedAux_pad (w : ℕ) : ∀ (acc n : ℕ) (rest : List ℕ),
    readFixedAux acc w (padDigits w n ++ rest) =
      some (acc * 10 ^ w + n % 10 ^ w, rest) := by
  induction w with
  | zero =>
    intro acc n rest
    simp [padDigits, readFixedAux, Nat.mod_one]
  | succ w ih =>
    intro acc n rest
    simp only [padDigits, List.cons_append, readFixedAux,
      digitVal_digit _ (Nat.mod_lt _ (by norm_num)), List.append_eq, ih]
    have hm : n % 10 ^ (w + 1) = n % 10 ^ w + 10 ^ w * (n / 10 ^ w % 10) := by
      rw [pow_succ, Nat.mod_mul]
    rw [hm, pow_succ]
    congr 2
    ring

theorem readFixed_pad (w n : ℕ) (hn : n < 10 ^ w) (rest : List ℕ) :
    readFixed w (padDigits w n ++ rest) = some (n, rest) := by
  unfold readFixed
  rw [readFixedAux_pad]
  simp [Nat.mod_eq_of_lt hn]

theorem expectC_cons (c : ℕ) (rest : List ℕ) :
    expectC c (c :: rest) = some rest := by
  simp [expectC]

/-- The offset suffix parses back to the offset it renders. -/
theorem readTz_tzRender (tz : Option ℤ)
    (h : match tz with | none => True | some off => off.natAbs ≤ 1439) :
    readTz (tzRender tz) = some (tz, []) := by
  rcases tz with _ | off
  · rfl
  · simp only at h
    have hdm := Nat.div_add_mod off.natAbs 60
    have rth : ∀ rest, readFixed 2 (padDigits 2 (off.natAbs / 60) ++ rest) =
        some (off.natAbs / 60, rest) :=
      fun rest => readFixed_pad 2 (off.natAbs / 60) (by omega) rest
    have rtm : ∀ rest, readFixed 2 (padDigits 2 (off.natAbs % 60) ++ rest) =
        some (off.natAbs % 60, rest) :=
      fun rest => readFixed_pad 2 (off.natAbs % 60) (by omega) rest
    have rtm0 : readFixed 2 (padDigits 2 (off.natAbs % 60)) =
        some (off.natAbs % 60, []) := by
      have := rtm []
      simpa using this
    by_cases hsgn : (0 : ℤ) ≤ off
    · have hoffeq : ((off.natAbs / 60 * 60 + off.natAbs % 60 : ℕ) : ℤ) = off := by
        omega
      simp only [tzRender, if_pos hsgn, readTz, List.cons_append, rth,
        expectC_cons, rtm, rtm0, hoffeq]
    · have hoffeq : -((off.natAbs / 60 * 60 + off.natAbs % 60 : ℕ) : ℤ) = off := by
        omega
      simp only [tzRender, if_neg hsgn, readTz, List.cons_append, rth,
        expectC_cons, rtm, rtm0, hoffeq]

/-- The fractional-second suffix parses back to the microsecond value,
leaving the offset suffix. -/
theorem usMatch_render (us : ℕ) (hus : us < 1000000) (tz : Option ℤ) :
    (match usRender us ++ tzRender tz with
     | 46 :: rest => readFixed 6 rest
     | other => some (0, other)) = some (us, tzRender tz) := by
  by_cases h0 : us = 0
  · subst h0
    rcases tz with _ | off
    · simp [usRender, tzRender]
    · by_cases hsgn : (0 : ℤ) ≤ off
      · simp [usRender, tzRender, hsgn]
      · simp [usRender, tzRender, hsgn]
  · simp only [usRender, if_neg h0, List.cons_append, List.append_assoc]
    rw [readFixed_pad 6 us (by omega)]

/-- After the seconds, rendering then parsing the optional suffixes reaches
the `datetime` constructor with the original components. -/
theorem fromisoTail_render (y mo dy hh mi ss us : ℕ) (tz : Option ℤ)
    (hus : us < 1000000)
    (htz : match tz with | none => True | some off => off.natAbs ≤ 1439) :
    fromisoTail y mo dy hh mi ss (usRender us ++ tzRender tz) =
      mkValid y mo dy hh mi ss us tz := by
  simp only [fromisoTail, usMatch_render us hus tz, readTz_tzRender tz htz]
  simp

/-- Parsing the fixed-width date-time prefix recovers each component and
hands the remaining text to `fromisoTail`. -/
theorem fromisoformat_layout (y mo dy hh mi ss : ℕ) (tail : List ℕ)
    (hy : y < 10000) (hmo : mo < 100) (hdy : dy < 100) (hhh : hh < 100)
    (hmi : mi < 100) (hss : ss < 100) :
    fromisoformat (padDigits 4 y ++ 45 :: padDigits 2 mo ++
      45 :: padDigits 2 dy ++ 84 :: padDigits 2 hh ++ 58 :: padDigits 2 mi ++
      58 :: padDigits 2 ss ++ tail) = fromisoTail y mo dy hh mi ss tail := by
  simp only [fromisoformat, List.append_assoc, List.cons_append,
    readFixed_pad 4 y hy, readFixed_pad 2 mo hmo, readFixed_pad 2 dy hdy,
    readFixed_pad 2 hh hhh, readFixed_pad 2 mi hmi, readFixed_pad 2 ss hss,
    expectC_cons]

/-- Parsing the rendering of a constructible datetime gives it back. -/
theorem fromisoformat_isoformat (d : PyDateTime) (h : validDTb d = true) :
    fromisoformat (isoformat d) = some d := by
  have hb := h
  simp only [validDTb, Bool.and_eq_true, decide_eq_true_eq] at hb
  obtain ⟨hnum, htz⟩ := hb
  have htzK : match d.tzmin with
      | none => True
      | some off => off.natAbs ≤ 1439 := by
    rcases htzm : d.tzmin with _ | off
    · trivial
    · rw [htzm] at htz
      simp only [Bool.and_eq_true, decide_eq_true_eq] at htz
      simp only []
      omega
  rw [isoformat, List.append_assoc, List.append_assoc, List.append_assoc,
    List.append_assoc, List.append_assoc]
  rw [show padDigits 4 d.year ++ (45 :: padDigits 2 d.month ++
      (45 :: padDigits 2 d.day ++ (84 :: padDigits 2 d.hour ++
      (58 :: padDigits 2 d.minute ++ (58 :: padDigits 2 d.second ++
      (usRender d.microsecond ++ tzRender d.tzmin)))))) =
    padDigits 4 d.year ++ 45 :: padDigits 2 d.month ++
      45 :: padDigits 2 d.day ++ 84 :: padDigits 2 d.hour ++
      58 :: padDigits 2 d.minute ++ 58 :: padDigits 2 d.second ++
      (usRender d.microsecond ++ tzRender d.tzmin) by
    simp [List.append_assoc]]
  rw [fromisoformat_layout d.year d.month d.day d.hour d.minute d.second
    (usRender d.microsecond ++ tzRender d.tzmin) (by omega) (by omega)
    (by omega) (by omega) (by omega) (by omega)]
  rw [fromisoTail_render d.year d.month d.day d.hour d.minute d.second
    d.microsecond d.tzmin (by omega) htzK]
  rw [mkValid]
  rw [show (⟨d.year, d.month, d.day, d.hour, d.minute, d.second,
    d.microsecond, d.tzmin⟩ : PyDateTime) = d from rfl]
  simp [h]

/-- C8: decoding the tagged object the encode hook produces for any
constructible datetime yields an equal datetime — the hooks are mutually
inverse on timestamps, to the precision of the ISO-8601 text (which carries
microseconds and minute-resolution offsets exactly). -/
theorem claim_C8 (d : PyDateTime) (h : validDTb d = true) :
    _deserialize_from_cache (_serialize_for_cache (JVal.jdt d)) =
      some (JVal.jdt d) := by
  simp [_serialize_for_cache, _deserialize_from_cache, fieldsLookup,
    fromisoformat_isoformat d h]

/-- C8 witness: a concrete aware datetime with microseconds round-trips. -/
theorem claim_C8_witness :
    validDTb wdtEx = true ∧
    _deserialize_from_cache (_serialize_for_cache (JVal.jdt wdtEx)) =
      some (JVal.jdt wdtEx) :=
  ⟨by decide, claim_C8 wdtEx (by decide)⟩

mutual

/-- Serialized good values deserialize back to themselves. -/
theorem jdeser_jser : ∀ v, goodJVal v = true → jdeser (jser v) = some v
  | .jnull, _ => rfl
  | .jbool _, _ => rfl
  | .jnum _, _ => rfl
  | .jstr _, _ => rfl
  | .jdt d, h => by
    simp only [goodJVal] at h
    simp [jser, _serialize_for_cache, jdeser, jdeserFields,
      _deserialize_from_cache, fieldsLookup, fromisoformat_isoformat d h]
  | .jarr items, h => by
    simp only [goodJVal] at h
    simp [jser, jdeser, jdeserItems_jserItems items h]
  | .jobj fields, h => by
    simp only [goodJVal, Bool.and_eq_true, Option.isNone_iff_eq_none] at h
    simp [jser, jdeser, jdeserFields_jserFields fields h.2,
      _deserialize_from_cache, h.1]

theorem jdeserItems_jserItems : ∀ items, goodItems items = true →
    jdeserItems (jserItems items) = some items
  | .nil, _ => rfl
  | .cons v rest, h => by
    simp only [goodItems, Bool.and_eq_true] at h
    simp [jserItems, jdeserItems, jdeser_jser v h.1,
      jdeserItems_jserItems rest h.2]

theorem jdeserFields_jserFields : ∀ fs, goodFields fs = true →
    jdeserFields (jserFields fs) = some fs
  | .nil, _ => rfl
  | .cons k v rest, h => by
    simp only [goodFields, Bool.and_eq_true] at h
    simp [jserFields, jdeserFields, jdeser_jser v h.1,
      jdeserFields_jserFields rest h.2]

end

/-- An upserted row is what a later read of the same key sees. -/
theorem lookupRow_upsertRow : ∀ (store : Store) (key : String) (v : JVal)
    (ts : ℚ), lookupRow (upsertRow store key v ts) key = some (v, ts)
  | [], key, v, ts => by simp [upsertRow, lookupRow]
  | (k, v0, ts0) :: rest, key, v, ts => by
    by_cases h : k = key
    · simp [upsertRow, h, lookupRow]
    · simp [upsertRow, h, lookupRow, lookupRow_upsertRow rest key v ts]

/-- C5: when the stored row is fresh (`now - timestamp < ttl`) the wrapper
returns the deserialized stored value with zero invocations of the wrapped
function; consequently a miss at `now1` followed by an identical call at
`now2` with `now2 - now1 < ttl` computes on the first call, hits on the
second, and returns the same value — one invocation across the two calls. -/
theorem claim_C5 :
    (∀ (connFail upsertFail : ℕ → Bool) (ttl : ℚ) (key : String)
       (fv v v2 : JVal) (ts now : ℚ) (store : Store),
       RetryableDatabase.enter connFail = .ok () →
       lookupRow store key = some (v, ts) →
       now - ts < ttl →
       jdeser v = some v2 →
       cacheWrapper connFail upsertFail ttl key fv now store =
         .ok (v2, store, 0)) ∧
    ∀ (connFail upsertFail : ℕ → Bool) (ttl : ℚ) (key : String) (fv : JVal)
      (now1 now2 : ℚ) (store : Store),
      RetryableDatabase.enter connFail = .ok () →
      upsertRetry upsertFail = .ok () →
      lookupRow store key = none →
      goodJVal fv = true →
      now2 - now1 < ttl →
      cacheWrapper connFail upsertFail ttl key fv now1 store =
        .ok (fv, upsertRow store key (jser fv) now1, 1) ∧
      cacheWrapper connFail upsertFail ttl key fv now2
          (upsertRow store key (jser fv) now1) =
        .ok (fv, upsertRow store key (jser fv) now1, 0) := by
  have hit : ∀ (connFail upsertFail : ℕ → Bool) (ttl : ℚ) (key : String)
      (fv v v2 : JVal) (ts now : ℚ) (store : Store),
      RetryableDatabase.enter connFail = .ok () →
      lookupRow store key = some (v, ts) →
      now - ts < ttl →
      jdeser v = some v2 →
      cacheWrapper connFail upsertFail ttl key fv now store =
        .ok (v2, store, 0) := by
    intro connFail upsertFail ttl key fv v v2 ts now store he hl hfresh hd
    simp [cacheWrapper, he, hl, hfresh, hd]
  refine ⟨hit, ?_⟩
  intro connFail upsertFail ttl key fv now1 now2 store he hu hl hg hfresh
  have hfirst : cacheWrapper connFail upsertFail ttl key fv now1 store =
      .ok (fv, upsertRow store key (jser fv) now1, 1) := by
    simp [cacheWrapper, he, hl, cacheMiss, hu]
  refine ⟨hfirst, ?_⟩
  exact hit connFail upsertFail ttl key fv (jser fv) fv now1 now2 _
    he (lookupRow_upsertRow store key (jser fv) now1) hfresh
    (jdeser_jser fv hg)

/-- C5 witness: two calls at times 0 and 1 with TTL 10 on an initially empty
store — the first misses and caches, the second hits and returns the value
(with its datetime intact) without running the function. -/
theorem claim_C5_witness :
    cacheWrapper cfNone cfNone 10 wkey wval 0 [] =
      .ok (wval, upsertRow [] wkey (jser wval) 0, 1) ∧
    cacheWrapper cfNone cfNone 10 wkey wval 1 (upsertRow [] wkey (jser wval) 0) =
      .ok (wval, upsertRow [] wkey (jser wval) 0, 0) :=
  claim_C5.2 cfNone cfNone 10 wkey wval 0 1 [] rfl rfl rfl (by decide)
    (by norm_num)

/-- With a nonzero running baseline and nonzero closes, Operation A's loop
never hits `ZeroDivisionError` and computes the successive-close ratios. -/
theorem opALoop_spec : ∀ (hs : List EquityHistorical) (prev : ℚ),
    prev ≠ 0 → (∀ h ∈ hs, h.close_equity ≠ 0) →
    opALoop hs prev = some (specCloses prev hs)
  | [], _, _, _ => rfl
  | h :: rest, prev, hprev, hnz => by
    have hh : h.close_equity ≠ 0 := hnz h (by simp)
    have hrest : ∀ g ∈ rest, g.close_equity ≠ 0 :=
      fun g hg => hnz g (by simp [hg])
    simp [opALoop, pydiv, hprev, opALoop_spec rest h.close_equity hh hrest,
      specCloses]

/-- Zipping the dates back onto the loop results gives the paired series. -/
theorem zipSpec : ∀ (hs : List EquityHistorical) (prev : ℚ),
    (hs.zip (specCloses prev hs)).map
      (fun hp => PercentageDate.mk hp.1.begins_at hp.2) = specPD prev hs
  | [], _ => rfl
  | h :: rest, prev => by
    simp [specCloses, specPD, zipSpec rest h.close_equity]

/-- The paired series has one entry per input sample. -/
theorem specPD_length : ∀ (prev : ℚ) (hs : List EquityHistorical),
    (specPD prev hs).length = hs.length
  | _, [] => rfl
  | prev, h :: rest => by simp [specPD, specPD_length h.close_equity rest]

/-- Entry `i + 1` of the paired series compares close `i + 1` against
close `i`. -/
theorem specPD_get : ∀ (hs : List EquityHistorical) (prev : ℚ) (i : ℕ)
    (h h9 : EquityHistorical) (p : PercentageDate),
    hs[i]? = some h → hs[i + 1]? = some h9 →
    (specPD prev hs)[i + 1]? = some p →
    p = PercentageDate.mk h9.begins_at
      ((h9.close_equity - h.close_equity) / h.close_equity)
  | [], _, i, _, _, _, hi, _, _ => by simp at hi
  | h0 :: rest, prev, 0, h, h9, p, hi, hi9, hp => by
    simp only [List.getElem?_cons_zero, Option.some_inj] at hi
    subst hi
    cases rest with
    | nil => simp at hi9
    | cons h1 rest2 =>
      simp only [List.getElem?_cons_succ, List.getElem?_cons_zero,
        Option.some_inj] at hi9
      subst hi9
      simp only [specPD, List.getElem?_cons_succ, List.getElem?_cons_zero,
        Option.some_inj] at hp
      subst hp
      rfl
  | h0 :: rest, prev, i + 1, h, h9, p, hi, hi9, hp => by
    simp only [List.getElem?_cons_succ] at hi hi9
    simp only [specPD, List.getElem?_cons_succ] at hp
    exact specPD_get rest h0.close_equity i h h9 p hi hi9 hp

/-- C4: Operation A returns an empty series on empty input, and on a series
of nonzero closes returns one pair per sample: the first pair compares the
first sample to its own close (percentage `0`), and pair `n + 1` has
percentage `(close_{n+1} - close_n) / close_n`, dated at sample `n + 1`. -/
theorem claim_C4 :
    _get_historical_portfolio_percentage [] = some [] ∧
    ∀ hs : List EquityHistorical, (∀ h ∈ hs, h.close_equity ≠ 0) →
      ∃ out, _get_historical_portfolio_percentage hs = some out ∧
        out.length = hs.length ∧
        (∀ p ∈ out[0]?, p.percentage = 0) ∧
        (∀ h0 ∈ hs[0]?, ∀ p ∈ out[0]?, p.date = h0.begins_at) ∧
        ∀ (i : ℕ) (h h9 : EquityHistorical) (p : PercentageDate),
          hs[i]? = some h → hs[i + 1]? = some h9 → out[i + 1]? = some p →
          p.date = h9.begins_at ∧
          p.percentage = (h9.close_equity - h.close_equity) / h.close_equity := by
  refine ⟨rfl, ?_⟩
  intro hs hnz
  cases hs with
  | nil =>
    refine ⟨[], rfl, rfl, by simp, by simp, ?_⟩
    intro i h h9 p hi
    simp at hi
  | cons h0 rest =>
    have hout : _get_historical_portfolio_percentage (h0 :: rest) =
        some (specPD h0.close_equity (h0 :: rest)) := by
      simp only [_get_historical_portfolio_percentage,
        opALoop_spec (h0 :: rest) h0.close_equity (hnz h0 (by simp)) hnz,
        zipSpec]
    refine ⟨specPD h0.close_equity (h0 :: rest), hout, specPD_length _ _,
      ?_, ?_, ?_⟩
    · intro p hp
      simp only [specPD, List.getElem?_cons_zero, Option.mem_def,
        Option.some_inj] at hp
      subst hp
      simp
    · intro g hg p hp
      simp only [List.getElem?_cons_zero, Option.mem_def, Option.some_inj]
        at hg
      subst hg
      simp only [specPD, List.getElem?_cons_zero, Option.mem_def,
        Option.some_inj] at hp
      subst hp
      rfl
    · intro i h h9 p hi hi9 hp
      have := specPD_get (h0 :: rest) h0.close_equity i h h9 p hi hi9 hp
      subst this
      exact ⟨rfl, rfl⟩

/-- C4 witness: on the specification's `[100, 110]` example the hypotheses
hold and Operation A succeeds. -/
theorem claim_C4_witness :
    (∀ h ∈ exA, h.close_equity ≠ 0) ∧
    (_get_historical_portfolio_percentage exA).isSome = true := by
  have hnz : ∀ h ∈ exA, h.close_equity ≠ 0 := by
    intro h hh
    simp only [exA, mkEH, List.mem_cons, List.not_mem_nil, or_false] at hh
    rcases hh with hh | hh <;> (subst hh; norm_num)
  refine ⟨hnz, ?_⟩
  obtain ⟨out, h1, -⟩ := claim_C4.2 exA hnz
  rw [h1]
  rfl

/-- C10: `convert_dict_to_typed_dict` never raises (every path returns);
`None` or non-dict input yields `None`; a string field that fails float
parsing becomes `0.0` (not `None`); any per-field conversion error (e.g. a
failed datetime parse) makes that one field `None`; and a dict input always
converts to a result dict, whatever the fields hold. -/
theorem claim_C10 :
    (∀ (data : JVal) (target : TypeDesc), ∃ r,
      convert_dict_to_typed_dict data target = .ok r) ∧
    (∀ (data : JVal) (target : TypeDesc), isPyDict data = false →
      convert_dict_to_typed_dict data target = .ok .jnull) ∧
    (∀ s : List ℕ, parseFloat s = none →
      convertField (.jstr s) (.basic .floatT) = .jnum 0) ∧
    (∀ (v : JVal) (t : FieldType), _convert_value_to_type v t = .error () →
      convertField v (.basic t) = .jnull) ∧
    ∀ (entries : JFields) (target : TypeDesc),
      convert_dict_to_typed_dict (.jobj entries) target =
        .ok (.jobj (convertFields entries target)) := by
  refine ⟨?_, ?_, ?_, ?_, ?_⟩
  · intro data target
    cases data with
    | jobj fields =>
      exact ⟨.jobj (convertFields fields target),
        by simp [convert_dict_to_typed_dict]⟩
    | jnull => exact ⟨.jnull, by simp [convert_dict_to_typed_dict]⟩
    | jbool b => exact ⟨.jnull, by simp [convert_dict_to_typed_dict]⟩
    | jnum q => exact ⟨.jnull, by simp [convert_dict_to_typed_dict]⟩
    | jstr s => exact ⟨.jnull, by simp [convert_dict_to_typed_dict]⟩
    | jdt d => exact ⟨.jnull, by simp [convert_dict_to_typed_dict]⟩
    | jarr items => exact ⟨.jnull, by simp [convert_dict_to_typed_dict]⟩
  · intro data target hd
    cases data <;> simp_all [convert_dict_to_typed_dict, isPyDict]
  · intro s hp
    simp [convertField, _convert_value_to_type, hp]
  · intro v t he
    simp [convertField, he]
  · intro entries target
    simp [convert_dict_to_typed_dict]

/-- C10 witness: a dict with an unparsable float string and an unparsable
datetime string converts without raising; the float field becomes `0.0`
and the datetime field becomes `None`. -/
theorem claim_C10_witness :
    parseFloat [120] = none ∧
    convertField (.jstr [120]) (.basic .floatT) = .jnum 0 ∧
    _convert_value_to_type (.jstr [121]) .datetimeT = .error () ∧
    convertField (.jstr [121]) (.basic .datetimeT) = .jnull ∧
    convert_dict_to_typed_dict (.jobj c10entries) c10desc =
      .ok (.jobj (convertFields c10entries c10desc)) := by
  have hp : parseFloat [120] = none := by decide
  have hdt : _convert_value_to_type (.jstr [121]) .datetimeT = .error () := rfl
  exact ⟨hp, claim_C10.2.2.1 [120] hp, hdt,
    claim_C10.2.2.2.1 (.jstr [121]) .datetimeT hdt,
    claim_C10.2.2.2.2 c10entries c10desc⟩
